import Mathlib

/-!
Verification of the customer-record mapper and the customer collection
state machine of the CRM frontend.

JavaScript strings are modelled as lists of characters (`JStr`); absent
(`undefined`/`null`) values are modelled with `Option`.  Each definition
below is a direct translation of the corresponding JavaScript function in
`src/utils/customerDataMapper.js`, `src/store/slices/customerSlice.js`
and `src/services/api/axiosClient.js`.
-/

namespace Crm

/-- A JavaScript string, modelled as its list of characters. -/
abbrev JStr := List Char

/-- The whitespace characters recognised by JavaScript's `trim` and the
regex class `\s` (the common ones; exotic Unicode space separators behave
the same way and are omitted). -/
def isJsWs (c : Char) : Bool :=
  c == ' ' || c == '\t' || c == '\n' || c == '\r' ||
  c == '\x0b' || c == '\x0c' || c == ' '

/-- JavaScript `String.prototype.trim`: drop whitespace at both ends. -/
def jsTrim (s : JStr) : JStr :=
  ((s.dropWhile isJsWs).reverse.dropWhile isJsWs).reverse

/-- JavaScript `str.split(sep)` for a single-character separator:
`"".split(',') = [""]`, empty pieces are kept. -/
def splitOnChar (sep : Char) : JStr → List JStr
  | [] => [[]]
  | c :: cs =>
    if c = sep then [] :: splitOnChar sep cs
    else
      match splitOnChar sep cs with
      | t :: ts => (c :: t) :: ts
      | [] => [[c]]

/-- JavaScript `Array.prototype.join(sep)`. -/
def joinWith (sep : JStr) : List JStr → JStr
  | [] => []
  | [x] => x
  | x :: xs => x ++ sep ++ joinWith sep xs

/-- The regex class `[A-Z]`. -/
def isUpperAZ (c : Char) : Bool := 'A' ≤ c && c ≤ 'Z'

/-- The regex class `\d`. -/
def isDigit09 (c : Char) : Bool := '0' ≤ c && c ≤ '9'

/-- `statePart.match(/^([A-Z]{2})(?:\s+\d{5})?$/)`: returns the captured
two-letter code when the whole string is two uppercase letters optionally
followed by whitespace and a five-digit ZIP. -/
def stateMatch (st : JStr) : Option JStr :=
  match st with
  | c1 :: c2 :: rest =>
    if isUpperAZ c1 && isUpperAZ c2 then
      if rest = [] then some [c1, c2]
      else
        let w := rest.takeWhile isJsWs
        let d := rest.dropWhile isJsWs
        if w ≠ [] && d.length = 5 && d.all isDigit09 then some [c1, c2]
        else none
    else none
  | _ => none

/-- `str.split(' ')[0]`: the prefix of the string up to the first space. -/
def firstSpaceToken (s : JStr) : JStr := s.takeWhile (fun c => c ≠ ' ')

/-- Result shape of `parseAddress`. -/
structure AddressParts where
  address : JStr
  city : JStr
  state : JStr
  country : JStr
  deriving DecidableEq, Repr

/-- Result shape of `splitFullName`. -/
structure NameParts where
  firstName : JStr
  lastName : JStr
  deriving DecidableEq, Repr

/-- Result shape of `parsePhoneNumber`. -/
structure PhoneParts where
  countryCode : JStr
  phoneNumber : JStr
  deriving DecidableEq, Repr

/-- The string `"USA"`. -/
def usa : JStr := ['U', 'S', 'A']

/-- `parseAddress` from `customerDataMapper.js`: split on commas, trim each
segment, and distribute the segments over address/city/state/country.
With fewer than two segments the ORIGINAL (untrimmed) string is returned
as the address, exactly as in the source. -/
def parseAddress (addressString : JStr) : AddressParts :=
  if addressString = [] then ⟨[], [], [], usa⟩
  else
    let parts := (splitOnChar ',' addressString).map jsTrim
    match parts with
    | address :: city :: statePart :: rest =>
      let state :=
        match stateMatch statePart with
        | some code => code
        | none => firstSpaceToken statePart
      let country := match rest with | c :: _ => c | [] => usa
      ⟨address, city, state, country⟩
    | [address, city] => ⟨address, city, [], usa⟩
    | _ => ⟨addressString, [], [], usa⟩

/-- `combineAddress` from `customerDataMapper.js`: join the truthy,
non-blank parts of {address, city, state} with `", "`, appending the
country only when it is truthy and not `"USA"`. -/
def combineAddress (address city state country : JStr) : JStr :=
  let parts := [address, city, state].filter (fun p => p ≠ [] && jsTrim p ≠ [])
  joinWith [',', ' '] parts ++
    (if country ≠ [] && country ≠ usa then [',', ' '] ++ country else [])

/-- Maximal non-whitespace runs of a string: the behaviour of
`str.split(/\s+/)` on a string with no leading whitespace.  `wsTokensAux`
accumulates the current run in reverse. -/
def wsTokensAux : JStr → JStr → List JStr
  | [], acc => if acc = [] then [] else [acc.reverse]
  | c :: cs, acc =>
    if isJsWs c then
      if acc = [] then wsTokensAux cs []
      else acc.reverse :: wsTokensAux cs []
    else wsTokensAux cs (c :: acc)

/-- `str.split(/\s+/)` for a trimmed string `t` (as produced inside
`splitFullName`): `"".split(/\s+/) = [""]`; otherwise the maximal
non-whitespace runs. -/
def jsSplitWs (t : JStr) : List JStr :=
  if t = [] then [[]] else wsTokensAux t []

/-- `splitFullName` from `customerDataMapper.js`. -/
def splitFullName (fullName : JStr) : NameParts :=
  if fullName = [] then ⟨[], []⟩
  else
    let nameParts := jsSplitWs (jsTrim fullName)
    match nameParts with
    | [n] => ⟨n, []⟩
    | first :: rest => ⟨first, joinWith [' '] rest⟩
    | [] => ⟨[], []⟩

/-- `combineFullName` from `customerDataMapper.js`. -/
def combineFullName (firstName lastName : JStr) : JStr :=
  joinWith [' '] ([firstName, lastName].filter (fun p => p ≠ [] && jsTrim p ≠ []))

/-- `parsePhoneNumber` from `customerDataMapper.js`.  A `null`/`undefined`
argument takes the same falsy branch as the empty string. -/
def parsePhoneNumber (phoneNumber : JStr) : PhoneParts :=
  if phoneNumber = [] then ⟨['1', '1'], []⟩
  else
    let cleaned := jsTrim phoneNumber
    match cleaned with
    | '+' :: rest =>
      let digitsOnly := rest.filter isDigit09
      match digitsOnly with
      | [] => ⟨['1', '1'], []⟩
      | [d] => ⟨[d, '1'], []⟩
      | d1 :: d2 :: phone => ⟨[d1, d2], phone⟩
    | _ => ⟨['1', '1'], cleaned.filter isDigit09⟩

/-- JavaScript `a || b` on number-or-undefined values: `undefined`, `0`
(and `NaN`, not modelled) are falsy. -/
def jsOrNum (a b : Option Int) : Option Int :=
  match a with
  | some x => if x = 0 then b else some x
  | none => b

/-- JavaScript `a || dflt` for a string-or-undefined `a` and a string
default: `undefined` and `""` are falsy. -/
def jsOrStr (a : Option JStr) (dflt : JStr) : JStr :=
  match a with
  | some s => if s = [] then dflt else s
  | none => dflt

/-- JavaScript `a || b` where both sides are string-or-undefined
(the chain `dateCreated || createdAt || joined`). -/
def jsOrStrOpt (a b : Option JStr) : Option JStr :=
  match a with
  | some s => if s = [] then b else some s
  | none => b

/-- JavaScript `a || 0` on a number-or-undefined value. -/
def jsNumOrZero (a : Option Int) : Int :=
  match a with
  | some x => x
  | none => 0

/-- A customer record in API (wire) shape.  Every field may be absent. -/
structure ApiRecord where
  accountId : Option Int := none
  id : Option Int := none
  firstName : Option JStr := none
  lastName : Option JStr := none
  email : Option JStr := none
  phoneNumber : Option JStr := none
  address : Option JStr := none
  city : Option JStr := none
  state : Option JStr := none
  country : Option JStr := none
  company : Option JStr := none
  status : Option JStr := none
  balance : Option Int := none
  dateCreated : Option JStr := none
  createdAt : Option JStr := none
  joined : Option JStr := none
  deriving DecidableEq, Repr

/-- A customer record in display (frontend) shape, the result of
`fromApiFormat`.  `id` and `accountId` are `Option` because the
JavaScript expression `customer.accountId || customer.id` can evaluate to
`undefined`; every other field always receives a defined value. -/
structure DisplayRecord where
  id : Option Int
  accountId : Option Int
  firstName : JStr
  lastName : JStr
  fullName : JStr
  email : JStr
  phone : JStr
  phoneNumber : JStr
  address : JStr
  city : JStr
  state : JStr
  country : JStr
  addressDisplay : JStr
  company : JStr
  status : JStr
  balance : Int
  joined : JStr
  dateCreated : JStr
  deriving DecidableEq, Repr

/-- The locale rendering of a parsed date
(`new Date(d).toLocaleDateString('en-US', …)`).  Its exact value is
environment- and locale-dependent and no claim inspects it; it is
modelled as the raw string.  Only its totality (it is always a defined
string) matters below. -/
def localeShortDate (d : JStr) : JStr := d

/-- `formatDate` from `customerDataMapper.js`, applied to the
possibly-undefined result of `dateCreated || createdAt || joined`:
falsy input yields the empty string, otherwise the locale rendering. -/
def formatDate (d : Option JStr) : JStr :=
  match d with
  | none => []
  | some s => if s = [] then [] else localeShortDate s

/-- The `+1 (XXX) XXX-XXXX` reformatting of a ten-digit phone number. -/
def formatTenDigit (p : JStr) : JStr :=
  ['+', '1', ' ', '('] ++ p.take 3 ++ [')', ' '] ++
    (p.drop 3).take 3 ++ ['-'] ++ p.drop 6

/-- `fromApiFormat` from `customerDataMapper.js`. -/
def fromApiFormat (customer : ApiRecord) : DisplayRecord :=
  let id := jsOrNum customer.accountId customer.id
  let fullName :=
    combineFullName (jsOrStr customer.firstName []) (jsOrStr customer.lastName [])
  let addressParts :=
    [jsOrStr customer.address [], jsOrStr customer.city []].filter
      (fun p => jsTrim p ≠ [])
  let address := joinWith [',', ' '] addressParts
  let phone0 := jsOrStr customer.phoneNumber []
  let phone :=
    if phone0.length = 10 ∧ phone0.all isDigit09 then formatTenDigit phone0
    else phone0
  let dateCreated :=
    formatDate (jsOrStrOpt customer.dateCreated
      (jsOrStrOpt customer.createdAt customer.joined))
  { id := id
    accountId := jsOrNum customer.accountId customer.id
    firstName := jsOrStr customer.firstName []
    lastName := jsOrStr customer.lastName []
    fullName := fullName
    email := jsOrStr customer.email []
    phone := phone
    phoneNumber := jsOrStr customer.phoneNumber []
    address := jsOrStr customer.address []
    city := jsOrStr customer.city []
    state := jsOrStr customer.state []
    country := jsOrStr customer.country usa
    addressDisplay := address
    company := jsOrStr customer.company []
    status := jsOrStr customer.status ['A', 'c', 't', 'i', 'v', 'e']
    balance := jsNumOrZero customer.balance
    joined := dateCreated
    dateCreated := dateCreated }

/-- The display-shape input of `toApiFormat` (the fields it reads). -/
structure FormRecord where
  fullName : Option JStr := none
  email : Option JStr := none
  phone : Option JStr := none
  address : Option JStr := none
  deriving DecidableEq, Repr

/-- The payload shape produced by `toApiFormat`. -/
structure ApiPayload where
  firstName : JStr
  lastName : JStr
  email : JStr
  phoneNumber : JStr
  address : JStr
  city : JStr
  state : JStr
  country : JStr
  deriving DecidableEq, Repr

/-- `toApiFormat` from `customerDataMapper.js`. -/
def toApiFormat (customer : FormRecord) : ApiPayload :=
  let n := splitFullName (jsOrStr customer.fullName [])
  let a := parseAddress (jsOrStr customer.address [])
  let phoneNumber :=
    (jsOrStr customer.phone []).filter
      (fun c => ¬(c = '+' ∨ isJsWs c ∨ c = '-' ∨ c = '(' ∨ c = ')'))
  { firstName := n.firstName
    lastName := n.lastName
    email := jsOrStr customer.email []
    phoneNumber := phoneNumber
    address := a.address
    city := a.city
    state := a.state
    country := a.country }

/-- The structured failure shape produced by the transport layer
(`axiosClient.js` rejects with `{status, message, …}`; `status = 0`
denotes a transport-level failure). -/
structure TransportErr where
  status : Int
  message : JStr
  deriving DecidableEq, Repr

/-- The `{status, message}` object stored in `state.error`. -/
structure StoreErr where
  status : Int
  message : JStr
  deriving DecidableEq, Repr

/-- The payload built by every thunk's `catch` block in
`customerSlice.js`: `{status: error.status || 500, message:
error.message || <per-operation default>}`.  JavaScript `||` treats the
number `0` and the empty string as falsy. -/
def rejectPayload (dflt : JStr) (e : TransportErr) : StoreErr :=
  { status := if e.status = 0 then 500 else e.status
    message := if e.message = [] then dflt else e.message }

/-- Default message of `fetchCustomersAsync`'s catch block. -/
def fetchFailMsg : JStr := "Failed to fetch customers".toList

/-- Default message of `createCustomerAsync`'s catch block. -/
def createFailMsg : JStr := "Failed to create customer".toList

/-- Default message of `updateCustomerAsync`'s catch block. -/
def updateFailMsg : JStr := "Failed to update customer".toList

/-- Default message of `deleteCustomerAsync`'s catch block. -/
def deleteFailMsg : JStr := "Failed to delete customer".toList

/-- The collection state of `customerSlice.js`. -/
structure CustomerState where
  customers : List DisplayRecord
  searchTerm : JStr
  viewMode : JStr
  loading : Bool
  error : Option StoreErr
  deriving DecidableEq, Repr

/-- `initialState` of `customerSlice.js`. -/
def initialState : CustomerState :=
  { customers := []
    searchTerm := []
    viewMode := "table".toList
    loading := false
    error := none }

/-- The `pending` case of every async thunk:
`loading = true; error = null`. -/
def pendingReducer (s : CustomerState) : CustomerState :=
  { s with loading := true, error := none }

/-- The `rejected` case of every async thunk:
`loading = false; error = action.payload`. -/
def rejectedReducer (s : CustomerState) (payload : StoreErr) : CustomerState :=
  { s with loading := false, error := some payload }

/-- `fetchCustomersAsync.fulfilled`: replace the list wholesale. -/
def fetchFulfilled (s : CustomerState) (payload : List DisplayRecord) :
    CustomerState :=
  { s with loading := false, error := none, customers := payload }

/-- The value returned by the `fetchCustomersAsync` thunk on success for
an array response: each API record mapped through `fromApiFormat`. -/
def fetchThunkPayload (records : List ApiRecord) : List DisplayRecord :=
  records.map fromApiFormat

/-- `createCustomerAsync.fulfilled`: push the mapped record. -/
def createFulfilled (s : CustomerState) (payload : DisplayRecord) :
    CustomerState :=
  { s with loading := false, error := none,
           customers := s.customers ++ [payload] }

/-- The value returned by the `updateCustomerAsync` thunk on success:
`fromApiFormat({...updatedCustomer, accountId: updatedCustomer.accountId
|| id, id: updatedCustomer.accountId || id})` where `id` is the request
id. -/
def updateThunkPayload (id : Int) (updatedCustomer : ApiRecord) :
    DisplayRecord :=
  fromApiFormat
    { updatedCustomer with
        accountId := jsOrNum updatedCustomer.accountId (some id)
        id := jsOrNum updatedCustomer.accountId (some id) }

/-- The four-way identity cross match of
`updateCustomerAsync.fulfilled` (JavaScript `===`; comparing two
`undefined` values yields `true`, which `Option` equality mirrors). -/
def updateMatch (updatedCustomer customer : DisplayRecord) : Bool :=
  customer.id == updatedCustomer.id ||
  customer.id == updatedCustomer.accountId ||
  customer.accountId == updatedCustomer.id ||
  customer.accountId == updatedCustomer.accountId

/-- JavaScript `Array.prototype.findIndex`, with `none` for `-1`. -/
def findIndex (p : α → Bool) : List α → Option Nat
  | [] => none
  | a :: l => if p a then some 0 else (findIndex p l).map (· + 1)

/-- `updateCustomerAsync.fulfilled`: replace the first four-way match, if
any, with the payload. -/
def updateFulfilled (s : CustomerState) (updatedCustomer : DisplayRecord) :
    CustomerState :=
  match findIndex (fun c => updateMatch updatedCustomer c) s.customers with
  | some i =>
    { s with loading := false, error := none,
             customers := s.customers.set i updatedCustomer }
  | none => { s with loading := false, error := none }

/-- `deleteCustomerAsync.fulfilled`: keep the records whose `id` and
`accountId` both differ from the deleted id. -/
def deleteFulfilled (s : CustomerState) (deletedId : Int) : CustomerState :=
  { s with loading := false, error := none,
           customers := s.customers.filter
             (fun c => c.id ≠ some deletedId ∧ c.accountId ≠ some deletedId) }

/-- The message produced by the transport layer for a generic network
failure (`axiosClient.js`). -/
def networkFailMsg : JStr := "Network error. Please check your connection.".toList

/-- A concrete record with account id 1. -/
def recAcct1 : DisplayRecord := fromApiFormat { accountId := some 1 }

/-- A concrete record with account id 2. -/
def recAcct2 : DisplayRecord := fromApiFormat { accountId := some 2 }

/-- A concrete two-record state used to instantiate the state-machine
theorems. -/
def stateTwo : CustomerState :=
  { initialState with customers := [recAcct1, recAcct2] }

/-- A concrete server response whose `accountId` is omitted. -/
def respNoAcct : ApiRecord := { firstName := some ['J', 'a', 'n', 'e'] }

/-- A concrete server response for account id 99, matching no record of
`stateTwo`. -/
def respAcct99 : ApiRecord := { accountId := some 99 }

end Crm

namespace Crm

/-- C1 (amended): for every async operation (fetchAll, create, update,
delete — their rejected reducers are textually identical, so the default
message is quantified), a structured transport failure `{status, message}`
with a non-zero status and a non-empty message is stored verbatim:
`loading = false` and `error = {status, message}`.  A status of `0` is
NOT preserved: the thunk's `error.status || 500` fallback rewrites it to
`500` (see the counterexample). -/
theorem rejected_stores_error (s : CustomerState) (e : TransportErr)
    (h0 : e.status ≠ 0) (hm : e.message ≠ []) (dflt : JStr) :
    (rejectedReducer (pendingReducer s) (rejectPayload dflt e)).loading = false ∧
    (rejectedReducer (pendingReducer s) (rejectPayload dflt e)).error =
      some ⟨e.status, e.message⟩ := by
  refine ⟨rfl, ?_⟩
  simp only [rejectedReducer, rejectPayload, if_neg h0, if_neg hm]

/-- Witness for C1: a `404 Not found` failure of the fetch operation is
stored verbatim. -/
theorem rejected_stores_error_witness :
    (rejectedReducer (pendingReducer initialState)
      (rejectPayload fetchFailMsg ⟨404, "Not found".toList⟩)).error =
      some ⟨404, "Not found".toList⟩ :=
  (rejected_stores_error initialState ⟨404, "Not found".toList⟩
    (by decide) (by decide) fetchFailMsg).2

/-- Counterexample for C1 as stated: a transport-level failure with
status `0` (network error) on fetch is stored with status `500`, not
`0` — `error.status || 500` treats `0` as falsy. -/
theorem rejected_zero_status_coerced :
    (rejectedReducer (pendingReducer initialState)
      (rejectPayload fetchFailMsg ⟨0, networkFailMsg⟩)).error =
      some ⟨500, networkFailMsg⟩ ∧
    (rejectedReducer (pendingReducer initialState)
      (rejectPayload fetchFailMsg ⟨0, networkFailMsg⟩)).error ≠
      some ⟨0, networkFailMsg⟩ := by
  constructor
  · rfl
  · intro h
    have : (500 : Int) = 0 := congrArg (fun o => (o.getD ⟨500, []⟩).status) h
    exact absurd this (by decide)

/-- C8: a create operation rejected with `{status: 400, message:
"Validation error"}` ends with `error` deep-equal to that object, the
customers list unchanged (same contents, hence same length), and
`loading = false`. -/
theorem create_rejected_validation (s : CustomerState) :
    (rejectedReducer (pendingReducer s)
      (rejectPayload createFailMsg ⟨400, "Validation error".toList⟩)).error =
      some ⟨400, "Validation error".toList⟩ ∧
    (rejectedReducer (pendingReducer s)
      (rejectPayload createFailMsg ⟨400, "Validation error".toList⟩)).customers =
      s.customers ∧
    (rejectedReducer (pendingReducer s)
      (rejectPayload createFailMsg ⟨400, "Validation error".toList⟩)).loading =
      false :=
  ⟨rfl, rfl, rfl⟩

/-- C7: a successful delete removes every record whose `id` or
`accountId` equals the deleted id, keeps every other record (membership
preserved), preserves relative order (the new list is a sublist of the
old one), and sets `loading = false` (and clears `error`). -/
theorem delete_fulfilled_spec (s : CustomerState) (did : Int) :
    (deleteFulfilled s did).loading = false ∧
    (deleteFulfilled s did).error = none ∧
    (∀ c ∈ (deleteFulfilled s did).customers,
      ¬(c.id = some did ∨ c.accountId = some did)) ∧
    (∀ c ∈ s.customers, c.id ≠ some did → c.accountId ≠ some did →
      c ∈ (deleteFulfilled s did).customers) ∧
    (deleteFulfilled s did).customers.Sublist s.customers := by
  refine ⟨rfl, rfl, ?_, ?_, ?_⟩
  · intro c hc
    simp only [deleteFulfilled, List.mem_filter, decide_eq_true_eq] at hc
    rcases hc with ⟨-, h1, h2⟩
    rintro (h | h)
    · exact h1 h
    · exact h2 h
  · intro c hc h1 h2
    simp only [deleteFulfilled, List.mem_filter, decide_eq_true_eq]
    exact ⟨hc, h1, h2⟩
  · exact List.filter_sublist _

/-- C9: for every input string (a `null`/`undefined` argument takes the
same falsy branch of `parsePhoneNumber` as the empty string), the
returned `countryCode` has length two and consists of digit characters
only. -/
theorem parsePhoneNumber_countryCode_two_digits (s : JStr) :
    (parsePhoneNumber s).countryCode.length = 2 ∧
    ∀ ch ∈ (parsePhoneNumber s).countryCode, isDigit09 ch = true := by
  have mem2 : ∀ x y ch : Char, ch ∈ [x, y] → ch = x ∨ ch = y := by
    intro x y ch h
    simpa using h
  by_cases hs : s = []
  · subst hs
    refine ⟨rfl, ?_⟩
    intro ch hch
    rcases mem2 _ _ _ hch with rfl | rfl <;> decide
  · simp only [parsePhoneNumber, if_neg hs]
    split
    next cleaned rest heq =>
      split
      next hd =>
        refine ⟨rfl, ?_⟩
        intro ch hch
        rcases mem2 _ _ _ hch with rfl | rfl <;> decide
      next d hd =>
        have hdig : isDigit09 d = true := by
          have : d ∈ rest.filter isDigit09 := by rw [hd]; exact List.mem_singleton_self d
          exact (List.mem_filter.mp this).2
        refine ⟨rfl, ?_⟩
        intro ch hch
        rcases mem2 _ _ _ hch with rfl | rfl
        · exact hdig
        · decide
      next d1 d2 phone hd =>
        have h1 : isDigit09 d1 = true := by
          have : d1 ∈ rest.filter isDigit09 := by rw [hd]; exact List.mem_cons_self d1 _
          exact (List.mem_filter.mp this).2
        have h2 : isDigit09 d2 = true := by
          have : d2 ∈ rest.filter isDigit09 := by
            rw [hd]; exact List.mem_cons_of_mem d1 (List.mem_cons_self d2 _)
          exact (List.mem_filter.mp this).2
        refine ⟨rfl, ?_⟩
        intro ch hch
        rcases mem2 _ _ _ hch with rfl | rfl
        · exact h1
        · exact h2
    next cleaned h =>
      refine ⟨rfl, ?_⟩
      intro ch hch
      rcases mem2 _ _ _ hch with rfl | rfl <;> decide

/-- Witness for C9 at the concrete input `"+4"`. -/
theorem parsePhoneNumber_countryCode_two_digits_witness :
    (parsePhoneNumber ('+' :: ['4'])).countryCode.length = 2 ∧
    ∀ ch ∈ (parsePhoneNumber ('+' :: ['4'])).countryCode, isDigit09 ch = true :=
  parsePhoneNumber_countryCode_two_digits ('+' :: ['4'])

/-- C4 (amended): `fromApiFormat` computes both identity fields with
JavaScript `accountId || id`: they equal `accountId` when it is defined
and non-zero, and fall back to the record's `id` field when `accountId`
is absent OR `0` (`0` is falsy for `||`).  The claim's `accountId ?? id`
reading fails at `accountId = 0` (see the counterexample). -/
theorem fromApiFormat_id_or (r : ApiRecord) :
    (∀ a : Int, r.accountId = some a → a ≠ 0 →
      (fromApiFormat r).id = some a ∧ (fromApiFormat r).accountId = some a) ∧
    ((r.accountId = none ∨ r.accountId = some 0) →
      (fromApiFormat r).id = r.id ∧ (fromApiFormat r).accountId = r.id) := by
  constructor
  · intro a ha ha0
    constructor <;> simp [fromApiFormat, jsOrNum, ha, ha0]
  · rintro (h | h) <;> constructor <;> simp [fromApiFormat, jsOrNum, h]

/-- Witness for C4: a record with `accountId = 3` is displayed with
`id = 3`. -/
theorem fromApiFormat_id_or_witness :
    (fromApiFormat { accountId := some 3, id := some 7 }).id = some 3 :=
  ((fromApiFormat_id_or { accountId := some 3, id := some 7 }).1 3 rfl
    (by decide)).1

/-- Counterexample for C4 as stated: a record with `accountId = 0` and
`id = 7` is displayed with `id = 7`, not `0`. -/
theorem fromApiFormat_accountId_zero :
    (fromApiFormat { accountId := some 0, id := some 7 }).id = some 7 ∧
    (fromApiFormat { accountId := some 0, id := some 7 }).id ≠ some 0 := by
  exact ⟨rfl, by decide⟩

/-- The API record with every field absent. -/
def emptyApiRecord : ApiRecord := {}

/-- C5 (amended): the Mapper functions are total (each is a function of
the embedding, defined on all inputs) and every documented field of
their results is a defined value, with one exception: `fromApiFormat`'s
`id` and `accountId` — always equal to each other — are `undefined`
exactly when the input's `accountId` is absent or `0` and its `id` field
is absent. -/
theorem fromApiFormat_id_undefined_iff (r : ApiRecord) :
    ((fromApiFormat r).id = none ↔
      ((r.accountId = none ∨ r.accountId = some 0) ∧ r.id = none)) ∧
    (fromApiFormat r).accountId = (fromApiFormat r).id := by
  refine ⟨?_, rfl⟩
  rcases h : r.accountId with _ | a
  · simp [fromApiFormat, jsOrNum, h]
  · by_cases ha : a = 0
    · subst ha
      simp [fromApiFormat, jsOrNum, h]
    · simp [fromApiFormat, jsOrNum, h, ha]

/-- Witness for C5: a record whose `accountId` is `0` and whose `id` is
absent is displayed with an undefined `id`. -/
theorem fromApiFormat_id_undefined_iff_witness :
    (fromApiFormat { accountId := some 0 }).id = none :=
  (fromApiFormat_id_undefined_iff { accountId := some 0 }).1.mpr
    ⟨Or.inr rfl, rfl⟩

/-- Counterexample for C5 as stated ("never returns undefined for any
documented field"): on the record with no fields, `fromApiFormat`
returns `undefined` for the documented fields `id` and `accountId`. -/
theorem fromApiFormat_empty_id_undefined :
    (fromApiFormat emptyApiRecord).id = none ∧
    (fromApiFormat emptyApiRecord).accountId = none :=
  ⟨rfl, rfl⟩

/-- `findIndex` misses exactly when no element satisfies the predicate
(JavaScript `findIndex` returning `-1`). -/
theorem findIndex_eq_none_iff (p : α → Bool) (l : List α) :
    findIndex p l = none ↔ ∀ a ∈ l, p a = false := by
  induction l with
  | nil => simp [findIndex]
  | cons a l ih =>
    by_cases h : p a
    · simp [findIndex, h]
    · simp [findIndex, h, Option.map_eq_none', ih]

/-- A successful `findIndex` returns the index of the FIRST element
satisfying the predicate. -/
theorem findIndex_eq_some_spec (p : α → Bool) (l : List α) (i : Nat)
    (h : findIndex p l = some i) :
    ∃ a, l[i]? = some a ∧ p a = true ∧
      ∀ j, j < i → ∀ b, l[j]? = some b → p b = false := by
  induction l generalizing i with
  | nil => simp [findIndex] at h
  | cons a l ih =>
    by_cases hp : p a
    · simp only [findIndex, if_pos hp, Option.some.injEq] at h
      subst h
      refine ⟨a, by simp, hp, ?_⟩
      intro j hj
      omega
    · simp only [findIndex, if_neg hp, Option.map_eq_some'] at h
      obtain ⟨i', hi', rfl⟩ := h
      obtain ⟨b, hb, hpb, hprev⟩ := ih i' hi'
      refine ⟨b, by simpa using hb, hpb, ?_⟩
      intro j hj c hc
      cases j with
      | zero =>
        have : a = c := by simpa using hc
        subst this
        exact Bool.eq_false_iff.mpr hp
      | succ k =>
        exact hprev k (by omega) c (by simpa using hc)

/-- If some element satisfies the predicate, `findIndex` succeeds. -/
theorem findIndex_isSome_of_mem (p : α → Bool) (l : List α)
    (h : ∃ a ∈ l, p a = true) : ∃ i, findIndex p l = some i := by
  induction l with
  | nil =>
    obtain ⟨a, ha, -⟩ := h
    exact absurd ha (List.not_mem_nil a)
  | cons a l ih =>
    by_cases hp : p a
    · exact ⟨0, by simp [findIndex, hp]⟩
    · obtain ⟨b, hb, hpb⟩ := h
      rcases List.mem_cons.mp hb with rfl | hbl
      · exact absurd hpb hp
      · obtain ⟨i, hi⟩ := ih ⟨b, hbl, hpb⟩
        exact ⟨i + 1, by simp [findIndex, hp, hi]⟩

/-- `dropWhile` is the identity on a list none of whose elements satisfy
the predicate. -/
theorem dropWhile_eq_self_of_no (p : Char → Bool) (l : JStr)
    (h : ∀ x ∈ l, p x = false) : l.dropWhile p = l := by
  cases l with
  | nil => rfl
  | cons a l => simp [List.dropWhile_cons, h a (List.mem_cons_self a l)]

/-- `jsTrim` is the identity on a string with no whitespace characters. -/
theorem jsTrim_eq_self_of_no_ws (s : JStr)
    (h : ∀ ch ∈ s, isJsWs ch = false) : jsTrim s = s := by
  unfold jsTrim
  rw [dropWhile_eq_self_of_no _ _ h,
    dropWhile_eq_self_of_no _ _ (fun ch hch => h ch (List.mem_reverse.mp hch)),
    List.reverse_reverse]

/-- `jsTrim` is the identity on a string with no leading and no trailing
whitespace. -/
theorem jsTrim_eq_self_of_ends (s : JStr)
    (h1 : s.dropWhile isJsWs = s) (h2 : s.reverse.dropWhile isJsWs = s.reverse) :
    jsTrim s = s := by
  unfold jsTrim
  rw [h1, h2, List.reverse_reverse]

/-- Trimming after prepending a single space returns the trimmed
string. -/
theorem jsTrim_space_cons (s : JStr)
    (h1 : s.dropWhile isJsWs = s) (h2 : s.reverse.dropWhile isJsWs = s.reverse) :
    jsTrim (' ' :: s) = s := by
  unfold jsTrim
  rw [List.dropWhile_cons]
  simp only [show isJsWs ' ' = true from rfl, if_true]
  rw [h1, h2, List.reverse_reverse]

/-- An uppercase letter is not whitespace. -/
theorem upper_not_ws (ch : Char) (h : isUpperAZ ch = true) : isJsWs ch = false := by
  by_contra hw
  have hw' : isJsWs ch = true := by
    cases hx : isJsWs ch
    · exact absurd hx hw
    · rfl
  simp only [isJsWs, Bool.or_eq_true, beq_iff_eq] at hw'
  rcases hw' with (((((rfl | rfl) | rfl) | rfl) | rfl) | rfl) | rfl <;>
    exact absurd h (by decide)

/-- Splitting a separator-free string returns the single piece. -/
theorem splitOnChar_no_sep (sep : Char) (xs : JStr)
    (h : ∀ x ∈ xs, x ≠ sep) : splitOnChar sep xs = [xs] := by
  induction xs with
  | nil => rfl
  | cons x xs ih =>
    have hx := h x (List.mem_cons_self x xs)
    have := ih (fun y hy => h y (List.mem_cons_of_mem x hy))
    simp [splitOnChar, hx, this]

/-- Splitting distributes over an explicit separator following a
separator-free prefix. -/
theorem splitOnChar_append_sep (sep : Char) (xs rest : JStr)
    (h : ∀ x ∈ xs, x ≠ sep) :
    splitOnChar sep (xs ++ sep :: rest) = xs :: splitOnChar sep rest := by
  induction xs with
  | nil => simp [splitOnChar]
  | cons x xs ih =>
    have hx := h x (List.mem_cons_self x xs)
    have := ih (fun y hy => h y (List.mem_cons_of_mem x hy))
    simp [splitOnChar, hx, this]

/-- A whitespace-free prefix is absorbed into the accumulator of
`wsTokensAux`. -/
theorem wsTokensAux_append_no_ws (f : JStr)
    (h : ∀ ch ∈ f, isJsWs ch = false) (rest acc : JStr) :
    wsTokensAux (f ++ rest) acc = wsTokensAux rest (f.reverse ++ acc) := by
  induction f generalizing acc with
  | nil => simp
  | cons x f ih =>
    have hx := h x (List.mem_cons_self x f)
    rw [List.cons_append, wsTokensAux, if_neg (by simp [hx]),
      ih (fun y hy => h y (List.mem_cons_of_mem x hy))]
    simp

/-- A non-empty whitespace-free string is a single token. -/
theorem wsTokensAux_single (f : JStr) (hne : f ≠ [])
    (h : ∀ ch ∈ f, isJsWs ch = false) : wsTokensAux f [] = [f] := by
  have := wsTokensAux_append_no_ws f h [] []
  rw [List.append_nil] at this
  rw [this, wsTokensAux, List.append_nil,
    if_neg (by simpa using hne), List.reverse_reverse]

/-- Two non-empty whitespace-free strings joined by a single space are
exactly two tokens. -/
theorem wsTokensAux_pair (f l : JStr) (hf : f ≠ []) (hl : l ≠ [])
    (hfw : ∀ ch ∈ f, isJsWs ch = false) (hlw : ∀ ch ∈ l, isJsWs ch = false) :
    wsTokensAux (f ++ ' ' :: l) [] = [f, l] := by
  rw [wsTokensAux_append_no_ws f hfw (' ' :: l) [], List.append_nil,
    wsTokensAux, if_pos (by rfl), if_neg (by simpa using hf),
    List.reverse_reverse, wsTokensAux_single l hl hlw]

/-- C3 (amended): `splitFullName (combineFullName f l) = {firstName: f,
lastName: l}` whenever `f` is NON-EMPTY and neither `f` nor `l` contains
any whitespace character.  (For empty `f` the claim fails: see the
counterexample.) -/
theorem splitFullName_combineFullName (f l : JStr) (hf : f ≠ [])
    (hfw : ∀ ch ∈ f, isJsWs ch = false)
    (hlw : ∀ ch ∈ l, isJsWs ch = false) :
    splitFullName (combineFullName f l) = ⟨f, l⟩ := by
  have hft : jsTrim f = f := jsTrim_eq_self_of_no_ws f hfw
  by_cases hl : l = []
  · subst hl
    have hcomb : combineFullName f [] = f := by
      simp [combineFullName, List.filter_cons, hf, hft, joinWith]
    rw [hcomb, splitFullName, if_neg hf, hft]
    simp only [jsSplitWs, if_neg hf, wsTokensAux_single f hf hfw]
  · have hlt : jsTrim l = l := jsTrim_eq_self_of_no_ws l hlw
    have hcomb : combineFullName f l = f ++ ' ' :: l := by
      simp [combineFullName, List.filter_cons, hf, hft, hl, hlt, joinWith]
    have hne : f ++ ' ' :: l ≠ [] := by simp [hf]
    have htrim : jsTrim (f ++ ' ' :: l) = f ++ ' ' :: l := by
      refine jsTrim_eq_self_of_ends _ ?_ ?_
      · obtain ⟨x, f', rfl⟩ := List.exists_cons_of_ne_nil hf
        rw [List.cons_append, List.dropWhile_cons,
          if_neg (by simp [hfw x (List.mem_cons_self x f')])]
      · obtain ⟨y, l', rfl⟩ := List.exists_cons_of_ne_nil hl
        rw [List.reverse_append, List.reverse_cons, List.append_assoc,
          List.dropWhile_append]
        have hrev : (y :: l').reverse.dropWhile isJsWs = (y :: l').reverse :=
          dropWhile_eq_self_of_no _ _ (fun ch hch =>
            hlw ch (List.mem_reverse.mp hch))
        rw [hrev, if_neg (by simp)]
    rw [hcomb, splitFullName, if_neg hne, htrim]
    simp only [jsSplitWs, if_neg hne,
      wsTokensAux_pair f l hf hl hfw hlw, joinWith]

/-- Witness for C3 at `f = "John"`, `l = "Doe"`. -/
theorem splitFullName_combineFullName_witness :
    splitFullName (combineFullName ['J', 'o', 'h', 'n'] ['D', 'o', 'e']) =
      ⟨['J', 'o', 'h', 'n'], ['D', 'o', 'e']⟩ :=
  splitFullName_combineFullName ['J', 'o', 'h', 'n'] ['D', 'o', 'e']
    (by decide) (by decide) (by decide)

/-- Counterexample for C3 as stated: with `f = ""` and `l = "Doe"` (both
free of internal whitespace) the round trip yields `{firstName: "Doe",
lastName: ""}`, not `{firstName: "", lastName: "Doe"}`. -/
theorem splitFullName_combineFullName_empty_first :
    splitFullName (combineFullName [] ['D', 'o', 'e']) =
      ⟨['D', 'o', 'e'], []⟩ ∧
    splitFullName (combineFullName [] ['D', 'o', 'e']) ≠
      ⟨[], ['D', 'o', 'e']⟩ := by
  exact ⟨rfl, by decide⟩

/-- C2 (amended): `parseAddress (combineAddress a c s "USA")` recovers
`{address: a, city: c, state: s, country: "USA"}` for `a`, `c` non-empty,
comma-free and with no leading or trailing whitespace, and `s` a
two-uppercase-letter string.  (Without the comma-free/trimmed conditions
the claim fails: see the counterexample.) -/
theorem parseAddress_combineAddress (a c : JStr) (s1 s2 : Char)
    (ha0 : a ≠ []) (haC : ∀ ch ∈ a, ch ≠ ',')
    (haL : a.dropWhile isJsWs = a)
    (haR : a.reverse.dropWhile isJsWs = a.reverse)
    (hc0 : c ≠ []) (hcC : ∀ ch ∈ c, ch ≠ ',')
    (hcL : c.dropWhile isJsWs = c)
    (hcR : c.reverse.dropWhile isJsWs = c.reverse)
    (h1 : isUpperAZ s1 = true) (h2 : isUpperAZ s2 = true) :
    parseAddress (combineAddress a c [s1, s2] usa) = ⟨a, c, [s1, s2], usa⟩ := by
  have haT : jsTrim a = a := jsTrim_eq_self_of_ends a haL haR
  have hcT : jsTrim c = c := jsTrim_eq_self_of_ends c hcL hcR
  have hsw : ∀ ch ∈ [s1, s2], isJsWs ch = false := by
    intro ch hch
    rcases (by simpa using hch : ch = s1 ∨ ch = s2) with rfl | rfl
    · exact upper_not_ws _ h1
    · exact upper_not_ws _ h2
  have hsT : jsTrim [s1, s2] = [s1, s2] := jsTrim_eq_self_of_no_ws _ hsw
  have hs1c : s1 ≠ ',' := by
    rintro rfl
    exact absurd h1 (by decide)
  have hs2c : s2 ≠ ',' := by
    rintro rfl
    exact absurd h2 (by decide)
  have hcomb : combineAddress a c [s1, s2] usa =
      a ++ ',' :: ' ' :: (c ++ ',' :: ' ' :: [s1, s2]) := by
    simp [combineAddress, List.filter_cons, ha0, haT, hc0, hcT, hsT,
      joinWith, List.append_assoc]
  have hne : a ++ ',' :: ' ' :: (c ++ ',' :: ' ' :: [s1, s2]) ≠ [] := by
    simp [ha0]
  have hsplit : splitOnChar ',' (a ++ ',' :: ' ' :: (c ++ ',' :: ' ' :: [s1, s2])) =
      [a, ' ' :: c, ' ' :: [s1, s2]] := by
    rw [splitOnChar_append_sep ',' a _ haC]
    have hrw : (' ' :: (c ++ ',' :: ' ' :: [s1, s2])) =
        (' ' :: c) ++ ',' :: (' ' :: [s1, s2]) := by simp
    rw [hrw, splitOnChar_append_sep ',' (' ' :: c) _ ?hc,
      splitOnChar_no_sep ',' (' ' :: [s1, s2]) ?hs]
    case hc =>
      intro x hx
      rcases List.mem_cons.mp hx with rfl | hx
      · decide
      · exact hcC x hx
    case hs =>
      intro x hx
      rcases (by simpa using hx : x = ' ' ∨ x = s1 ∨ x = s2) with rfl | rfl | rfl
      · decide
      · exact hs1c
      · exact hs2c
  have hsRL : List.dropWhile isJsWs [s1, s2] = [s1, s2] :=
    dropWhile_eq_self_of_no _ _ hsw
  have hsRR : List.dropWhile isJsWs ([s1, s2] : JStr).reverse =
      ([s1, s2] : JStr).reverse :=
    dropWhile_eq_self_of_no _ _ (fun ch hch => hsw ch (List.mem_reverse.mp hch))
  have hmap : List.map jsTrim [a, ' ' :: c, ' ' :: [s1, s2]] =
      [a, c, [s1, s2]] := by
    simp only [List.map_cons, List.map_nil, haT,
      jsTrim_space_cons c hcL hcR, jsTrim_space_cons [s1, s2] hsRL hsRR]
  rw [hcomb, parseAddress, if_neg hne]
  simp only [hsplit, hmap]
  simp [stateMatch, h1, h2]

/-- Witness for C2 at `a = "123 Main St"`, `c = "Springfield"`,
`s = "IL"`. -/
theorem parseAddress_combineAddress_witness :
    parseAddress (combineAddress "123 Main St".toList "Springfield".toList
        ['I', 'L'] usa) =
      ⟨"123 Main St".toList, "Springfield".toList, ['I', 'L'], usa⟩ :=
  parseAddress_combineAddress "123 Main St".toList "Springfield".toList 'I' 'L'
    (by decide) (by decide) (by decide) (by decide)
    (by decide) (by decide) (by decide) (by decide)
    (by decide) (by decide)

/-- Counterexample for C2 as stated: with the non-empty `a = " "` (a
single space), `c = "B"` and the two-uppercase-letter `s = "CA"`, the
round trip yields `{address: "B", city: "CA", state: "", country:
"USA"}` — `combineAddress` drops the blank `a`, so the claimed
`{address: " ", city: "B", state: "CA", country: "USA"}` is not
recovered. -/
theorem parseAddress_combineAddress_blank_address :
    parseAddress (combineAddress [' '] ['B'] ['C', 'A'] usa) =
      ⟨['B'], ['C', 'A'], [], usa⟩ ∧
    parseAddress (combineAddress [' '] ['B'] ['C', 'A'] usa) ≠
      ⟨[' '], ['B'], ['C', 'A'], usa⟩ := by
  exact ⟨by decide, by decide⟩

/-- C6: when an update succeeds and some stored record matches the mapped
response by the four-way id/accountId cross match, the reducer replaces
exactly the FIRST such record with the mapped response record and leaves
every other position unchanged; and when the server response omits
`accountId`, the identity fields of the mapped record are forced to the
request id. -/
theorem update_fulfilled_replaces_first (s : CustomerState) (reqId : Int)
    (resp : ApiRecord)
    (h : ∃ c ∈ s.customers,
      updateMatch (updateThunkPayload reqId resp) c = true) :
    (resp.accountId = none →
      (updateThunkPayload reqId resp).id = some reqId ∧
      (updateThunkPayload reqId resp).accountId = some reqId) ∧
    ∃ i c, s.customers[i]? = some c ∧
      updateMatch (updateThunkPayload reqId resp) c = true ∧
      (∀ j, j < i → ∀ b, s.customers[j]? = some b →
        updateMatch (updateThunkPayload reqId resp) b = false) ∧
      (updateFulfilled s (updateThunkPayload reqId resp)).customers =
        s.customers.set i (updateThunkPayload reqId resp) ∧
      (updateFulfilled s (updateThunkPayload reqId resp)).customers[i]? =
        some (updateThunkPayload reqId resp) ∧
      ∀ j, j ≠ i →
        (updateFulfilled s (updateThunkPayload reqId resp)).customers[j]? =
          s.customers[j]? := by
  constructor
  · intro hacc
    constructor <;>
      simp [updateThunkPayload, fromApiFormat, jsOrNum, hacc, ite_self]
  · obtain ⟨i, hi⟩ := findIndex_isSome_of_mem
      (fun c => updateMatch (updateThunkPayload reqId resp) c) s.customers h
    obtain ⟨c, hc, hm, hprev⟩ := findIndex_eq_some_spec _ _ _ hi
    have hlen : i < s.customers.length := by
      obtain ⟨hlt, -⟩ := List.getElem?_eq_some.mp hc
      exact hlt
    refine ⟨i, c, hc, hm, hprev, ?_, ?_, ?_⟩
    · simp [updateFulfilled, hi]
    · simp only [updateFulfilled, hi]
      exact List.getElem?_set_self hlen
    · intro j hj
      simp only [updateFulfilled, hi]
      exact List.getElem?_set_ne (Ne.symm hj)

/-- Witness for C6: updating id 1 in the two-record state with a response
lacking `accountId` forces the mapped record's identity fields to 1 (and
record 1 is present to be matched). -/
theorem update_fulfilled_replaces_first_witness :
    (updateThunkPayload 1 respNoAcct).id = some 1 ∧
    (updateThunkPayload 1 respNoAcct).accountId = some 1 :=
  (update_fulfilled_replaces_first stateTwo 1 respNoAcct
    ⟨recAcct1, by simp [stateTwo, initialState], by decide⟩).1 rfl

/-- C10: when an update succeeds but no stored record matches the mapped
response by the four-way cross match, the customers list is left
unchanged and the operation (pending, then fulfilled) ends with
`loading = false` and `error = null`. -/
theorem update_fulfilled_no_match (s : CustomerState) (reqId : Int)
    (resp : ApiRecord)
    (h : ∀ c ∈ s.customers,
      updateMatch (updateThunkPayload reqId resp) c = false) :
    (updateFulfilled (pendingReducer s)
      (updateThunkPayload reqId resp)).customers = s.customers ∧
    (updateFulfilled (pendingReducer s)
      (updateThunkPayload reqId resp)).loading = false ∧
    (updateFulfilled (pendingReducer s)
      (updateThunkPayload reqId resp)).error = none := by
  have hnone : findIndex
      (fun c => updateMatch (updateThunkPayload reqId resp) c)
      s.customers = none :=
    (findIndex_eq_none_iff _ _).mpr h
  refine ⟨?_, ?_, ?_⟩ <;> simp [updateFulfilled, hnone, pendingReducer]

/-- Witness for C10: updating with a response for account 99 leaves the
two-record state's list unchanged. -/
theorem update_fulfilled_no_match_witness :
    (updateFulfilled (pendingReducer stateTwo)
      (updateThunkPayload 99 respAcct99)).customers = stateTwo.customers ∧
    (updateFulfilled (pendingReducer stateTwo)
      (updateThunkPayload 99 respAcct99)).loading = false ∧
    (updateFulfilled (pendingReducer stateTwo)
      (updateThunkPayload 99 respAcct99)).error = none :=
  update_fulfilled_no_match stateTwo 99 respAcct99 (by decide)

/-- Witness for C7: deleting id 1 from the two-record state keeps the
record with account id 2. -/
theorem delete_fulfilled_spec_witness :
    recAcct2 ∈ (deleteFulfilled stateTwo 1).customers :=
  (delete_fulfilled_spec stateTwo 1).2.2.2.1 recAcct2
    (by simp [stateTwo, initialState]) (by decide) (by decide)

end Crm
